import Mathlib

/-!
Shallow embedding of the parallel test-plan execution engine
(`backend/app/services/worktree_pool.py` and
`backend/app/services/execution_worker.py`).

Machine state (the pool's ordered dict of worktrees) is passed explicitly.
External `subprocess.run` invocations are parametrised by an environment
`GitEnv` mapping a command's argument list to its outcome; each operation
additionally returns the list of events it performs (lock operations,
commands it spawns, sleeps, state transitions), so that locking discipline
and command ordering can be stated.  Wall-clock times are abstract `Nat`
ticks supplied by the caller.
-/

namespace PipelineHardening

/-- Enum `WorktreeStatus` from `worktree_pool.py`: FREE / BUSY / ERROR. -/
inductive WorktreeStatus
  | FREE
  | BUSY
  | ERROR
deriving DecidableEq, Repr

/-- Dataclass `WorktreeInfo` from `worktree_pool.py`. -/
structure WorktreeInfo where
  id : String
  path : String
  branch : String
  status : WorktreeStatus
  current_test : Option String := none
  created_at : Option Nat := none
  last_used : Option Nat := none
deriving DecidableEq, Repr

/-- The `WorktreePool` object state: `pool_size`, the insertion-ordered
dict `worktrees` (modelled as an association list), and the
`_initialized` flag. -/
structure WorktreePool where
  pool_size : Nat
  worktrees : List (String × WorktreeInfo)
  initializedFlag : Bool
deriving DecidableEq, Repr

/-- Outcome of one `subprocess.run` invocation: normal exit with stdout,
non-zero exit with stderr (raises `CalledProcessError` only under
`check=True`), or `TimeoutExpired`. -/
inductive CmdOutcome
  | ok (stdout : String)
  | fail (returncode : Nat) (stderr : String)
  | timedOut
deriving DecidableEq, Repr

/-- External environment: what each git command invocation returns. -/
def GitEnv : Type := List String → CmdOutcome

/-- Observable events of a pool operation, in program order. -/
inductive PoolEvent
  | lockAcquire
  | lockRelease
  | runCmd (args : List String) (timeoutSec : Nat) (check : Bool)
  | sleepSec (n : Nat)
  | setStatus (wtId : String) (s : WorktreeStatus)
  | warn
deriving DecidableEq, Repr

/-- Annotate each event with whether the pool mutex is held when the
event occurs (folding over `lockAcquire` / `lockRelease`). -/
def heldAnnotate : Bool → List PoolEvent → List (PoolEvent × Bool)
  | _, [] => []
  | held, PoolEvent.lockAcquire :: rest =>
      (PoolEvent.lockAcquire, held) :: heldAnnotate true rest
  | held, PoolEvent.lockRelease :: rest =>
      (PoolEvent.lockRelease, held) :: heldAnnotate false rest
  | held, e :: rest => (e, held) :: heldAnnotate held rest

/-- Whether an event is an external command invocation. -/
def PoolEvent.isRunCmd : PoolEvent → Bool
  | PoolEvent.runCmd _ _ _ => true
  | _ => false

/-- Whether an event is a blocking sleep. -/
def PoolEvent.isSleep : PoolEvent → Bool
  | PoolEvent.sleepSec _ => true
  | _ => false

/-- Python dict assignment `d[k] = v`: replace the value when the key is
present (keeping its position), append otherwise. -/
def setWt : List (String × WorktreeInfo) → String → WorktreeInfo →
    List (String × WorktreeInfo)
  | [], k, v => [(k, v)]
  | (k', v') :: rest, k, v =>
      if k' = k then (k', v) :: rest else (k', v') :: setWt rest k v

/-- Python `s.split("\n")` on the character list of `s` (so that
`"".split("\n") = [""]`). -/
def splitLines : List Char → List (List Char)
  | [] => [[]]
  | c :: cs =>
      let r := splitLines cs
      if c = '\n' then [] :: r
      else
        match r with
        | [] => [[c]]
        | l :: ls => (c :: l) :: ls

/-- The whitespace characters stripped by Python `str.strip()`. -/
def isPySpace (c : Char) : Bool :=
  c = ' ' || c = '\t' || c = '\n' || c = '\r' || c = '\x0b' || c = '\x0c'

/-- Python `s.strip()`. -/
def stripChars (cs : List Char) : List Char :=
  ((cs.dropWhile isPySpace).reverse.dropWhile isPySpace).reverse

/-- Python `s.lstrip("* ")`. -/
def lstripStarSpace (cs : List Char) : List Char :=
  cs.dropWhile (fun c => c = '*' || c = ' ')

/-- List comprehension `[b.strip().lstrip("* ") for b in stdout.split("\n") if b.strip()]`. -/
def parseBranches (stdout : String) : List String :=
  ((splitLines stdout.data).filter (fun b => stripChars b ≠ [])).map
    (fun b => String.mk (lstripStarSpace (stripChars b)))

/-- One `subprocess.run(args, timeout=30, check=True)` step of
`_cleanup_worktree`, with the exception translation done by its
`except` clauses: `CalledProcessError` becomes "Git cleanup failed ...",
`TimeoutExpired` becomes "Timeout cleaning worktree ...". Returns stdout
on success. -/
def runCleanupStep (env : GitEnv) (wtId : String) (args : List String) :
    Except String String :=
  match env args with
  | CmdOutcome.ok out => Except.ok out
  | CmdOutcome.fail _ stderr =>
      Except.error ("Git cleanup failed for " ++ wtId ++ ": " ++ stderr)
  | CmdOutcome.timedOut =>
      Except.error ("Timeout cleaning worktree " ++ wtId)

/-- The branch-deletion loop of `_cleanup_worktree`: for every listed
branch other than `main` and the worktree's own branch, run
`git branch -D <branch>` with `timeout=30` and **no** `check=True`,
so a non-zero exit is ignored; only `TimeoutExpired` escapes (and is
then converted by the enclosing handler). -/
def deleteBranches (env : GitEnv) (wtId ownBranch : String) :
    List String → List PoolEvent × Except String Unit
  | [] => ([], Except.ok ())
  | br :: rest =>
      if br = "main" ∨ br = ownBranch then
        deleteBranches env wtId ownBranch rest
      else
        let args := ["git", "branch", "-D", br]
        let ev := PoolEvent.runCmd args 30 false
        match env args with
        | CmdOutcome.timedOut =>
            ([ev], Except.error ("Timeout cleaning worktree " ++ wtId))
        | _ =>
            let r := deleteBranches env wtId ownBranch rest
            (ev :: r.1, r.2)

/-- Method `WorktreePool._cleanup_worktree`: force-checkout `main`, hard-reset to
`origin/main`, `git clean -fd`, list local branches, then delete every
local branch except `main` and the worktree's own branch.  The first
four steps run with `check=True`; any `CalledProcessError` or
`TimeoutExpired` aborts the sequence with the corresponding message. -/
def cleanup_worktree (env : GitEnv) (wt : WorktreeInfo) :
    List PoolEvent × Except String Unit :=
  let c1 := ["git", "checkout", "-f", "main"]
  let c2 := ["git", "reset", "--hard", "origin/main"]
  let c3 := ["git", "clean", "-fd"]
  let c4 := ["git", "branch", "--list"]
  let e1 := PoolEvent.runCmd c1 30 true
  let e2 := PoolEvent.runCmd c2 30 true
  let e3 := PoolEvent.runCmd c3 30 true
  let e4 := PoolEvent.runCmd c4 30 true
  match runCleanupStep env wt.id c1 with
  | Except.error m => ([e1], Except.error m)
  | Except.ok _ =>
  match runCleanupStep env wt.id c2 with
  | Except.error m => ([e1, e2], Except.error m)
  | Except.ok _ =>
  match runCleanupStep env wt.id c3 with
  | Except.error m => ([e1, e2, e3], Except.error m)
  | Except.ok _ =>
  match runCleanupStep env wt.id c4 with
  | Except.error m => ([e1, e2, e3, e4], Except.error m)
  | Except.ok out =>
      let d := deleteBranches env wt.id wt.branch (parseBranches out)
      ([e1, e2, e3, e4] ++ d.1, d.2)

/-- Method `WorktreePool.release`: under the pool mutex, an unknown id is a
warning no-op; otherwise clean the worktree, then mark it FREE and clear
the tag, or mark it ERROR and propagate when cleaning failed.  The whole
body, including the external cleanup commands, runs inside
`async with self._lock`. -/
def WorktreePool.release (env : GitEnv) (p : WorktreePool) (wt : WorktreeInfo) :
    List PoolEvent × WorktreePool × Except String Unit :=
  if (p.worktrees.lookup wt.id).isNone then
    ([PoolEvent.lockAcquire, PoolEvent.warn, PoolEvent.lockRelease], p,
     Except.ok ())
  else
    let c := cleanup_worktree env wt
    match c.2 with
    | Except.ok _ =>
        let freed := { wt with
          status := WorktreeStatus.FREE, current_test := none }
        ([PoolEvent.lockAcquire] ++ c.1 ++
           [PoolEvent.setStatus wt.id WorktreeStatus.FREE,
            PoolEvent.lockRelease],
         { p with worktrees := setWt p.worktrees wt.id freed },
         Except.ok ())
    | Except.error m =>
        let errored := { wt with status := WorktreeStatus.ERROR }
        ([PoolEvent.lockAcquire] ++ c.1 ++
           [PoolEvent.setStatus wt.id WorktreeStatus.ERROR,
            PoolEvent.lockRelease],
         { p with worktrees := setWt p.worktrees wt.id errored },
         Except.error m)

/-- First FREE entry of `self.worktrees.items()`, in dict insertion
order. -/
def findFree : List (String × WorktreeInfo) → Option (String × WorktreeInfo)
  | [] => none
  | (k, info) :: rest =>
      if info.status = WorktreeStatus.FREE then some (k, info)
      else findFree rest

/-- One scan of the `for wt_id, info in self.worktrees.items()` loop in
`acquire`: on the first FREE worktree, mark it BUSY, stamp
`current_test` and `last_used`, and return it. -/
def acquireScan (p : WorktreePool) (test_name : Option String) (now : Nat) :
    Option (String × WorktreeInfo × WorktreePool) :=
  match findFree p.worktrees with
  | none => none
  | some (k, info) =>
      let info' := { info with
        status := WorktreeStatus.BUSY
        current_test := test_name
        last_used := some now }
      some (k, info', { p with worktrees := setWt p.worktrees k info' })

/-- The `while True` wait loop of `acquire`, run entirely under the pool
mutex: scan; if no worktree is FREE, `await asyncio.sleep(1)` and scan
again.  Because the mutex is held, the table cannot change between
scans; `fuel` bounds the number of scan rounds we observe, and `none`
means the call is still waiting after all of them. -/
def acquireLoop (p : WorktreePool) (test_name : Option String) (now : Nat) :
    Nat → List PoolEvent × Option (String × WorktreeInfo × WorktreePool)
  | 0 => ([], none)
  | fuel + 1 =>
      match acquireScan p test_name now with
      | some r => ([PoolEvent.setStatus r.1 WorktreeStatus.BUSY], some r)
      | none =>
          let t := acquireLoop p test_name now fuel
          (PoolEvent.sleepSec 1 :: t.1, t.2)

/-- Method `WorktreePool.acquire`: raises when the pool is not initialized;
otherwise enters `async with self._lock` and loops until a FREE worktree
is found.  The method takes no timeout argument.  The mutex is released
only when the loop returns. -/
def WorktreePool.acquire (p : WorktreePool) (test_name : Option String)
    (now : Nat) (fuel : Nat) :
    List PoolEvent × Except String (Option (String × WorktreeInfo × WorktreePool)) :=
  if p.initializedFlag = false then
    ([], Except.error "Worktree pool not initialized. Call initialize() first.")
  else
    let t := acquireLoop p test_name now fuel
    (PoolEvent.lockAcquire :: t.1 ++
       (match t.2 with
        | some _ => [PoolEvent.lockRelease]
        | none => []),
     Except.ok t.2)

/-- Environment for `initialize`: the outcome of `_create_worktree` for a
given worktree id (the created `WorktreeInfo` or the raised message). -/
def InitEnv : Type := String → Except String WorktreeInfo

/-- The ids `wt-1 .. wt-N` created by `initialize`'s
`for i in range(1, pool_size + 1)` loop. -/
def wtIds (n : Nat) : List String :=
  (List.range n).map (fun i => "wt-" ++ toString (i + 1))

/-- The creation loop of `initialize`: create each worktree in order,
recording it in the dict; the first failure is re-raised, leaving the
pool partially initialized. -/
def initWorktrees (env : InitEnv) :
    List String → WorktreePool → WorktreePool × Except String Unit
  | [], q => (q, Except.ok ())
  | wtId :: rest, q =>
      match env wtId with
      | Except.ok info =>
          initWorktrees env rest
            { q with worktrees := setWt q.worktrees wtId info }
      | Except.error e => (q, Except.error e)

/-- Method `WorktreePool.initialize`: when `_initialized` is already set, log a
warning and return immediately (no error, no changes); otherwise create
`wt-1 .. wt-N` and set the flag, surfacing the first creation failure. -/
def WorktreePool.initialize (env : InitEnv) (p : WorktreePool) :
    WorktreePool × Except String Unit :=
  if p.initializedFlag then (p, Except.ok ())
  else
    let t := initWorktrees env (wtIds p.pool_size) p
    match t.2 with
    | Except.ok _ => ({ t.1 with initializedFlag := true }, Except.ok ())
    | Except.error e => (t.1, Except.error e)

/-- Property `num_free`: count of FREE worktrees. -/
def WorktreePool.num_free (p : WorktreePool) : Nat :=
  p.worktrees.countP (fun kv => kv.2.status = WorktreeStatus.FREE)

/-- Property `num_busy`: count of BUSY worktrees. -/
def WorktreePool.num_busy (p : WorktreePool) : Nat :=
  p.worktrees.countP (fun kv => kv.2.status = WorktreeStatus.BUSY)

/-- Property `num_error`: count of ERROR worktrees. -/
def WorktreePool.num_error (p : WorktreePool) : Nat :=
  p.worktrees.countP (fun kv => kv.2.status = WorktreeStatus.ERROR)

/-- Status of the worktree registered under key `k`, if any. -/
def WorktreePool.statusOf (p : WorktreePool) (k : String) :
    Option WorktreeStatus :=
  (p.worktrees.lookup k).map (fun i => i.status)

/-- Modelled from the spec: `TestRequest` lives in `test_queue.py`, which
is absent from the sources; the fields below are the spec's Request
attributes that `execution_worker.py` reads (`id`, `plan_file`,
`retry_count`). -/
structure TestRequest where
  id : String
  plan_file : String
  retry_count : Nat := 0
deriving DecidableEq, Repr

/-- Modelled from the spec: `TestResult` lives in `test_queue.py`, which
is absent from the sources; the fields are the spec's Result attributes
as constructed by `execution_worker.py` (request id, worktree id, status
string, sub-task counts, optional error, timestamps, duration). -/
structure TestResult where
  test_request_id : String
  worktree_id : String
  status : String
  tasks_passed : Nat := 0
  tasks_failed : Nat := 0
  error : Option String := none
  started_at : Option Nat := none
  completed_at : Option Nat := none
  duration_seconds : Option Nat := none
deriving DecidableEq, Repr

/-- Method `ExecutionWorker._run_test_simulation`: sleep 100 ms, then return a
COMPLETE result with 5 tasks passed and 0 failed, stamped with the start
time, the completion time and their difference. -/
def run_test_simulation (req : TestRequest) (wt : WorktreeInfo)
    (started_at now : Nat) : TestResult :=
  { test_request_id := req.id
    worktree_id := wt.id
    status := "COMPLETE"
    tasks_passed := 5
    tasks_failed := 0
    started_at := some started_at
    completed_at := some now
    duration_seconds := some (now - started_at) }

/-- Outcome of the awaited executor step inside `_execute_test`: the
simulation either finishes normally at some time, or raises at some
time. -/
inductive ExecOutcome
  | finished (now : Nat)
  | raised (msg : String) (now : Nat)
deriving DecidableEq, Repr

/-- Method `ExecutionWorker._execute_test`: run the simulation; on an exception
return a FAILED result whose `error` is `str(e)` and whose timestamps
bracket the attempt. -/
def execute_test (outcome : ExecOutcome) (req : TestRequest)
    (wt : WorktreeInfo) (started_at : Nat) : TestResult :=
  match outcome with
  | ExecOutcome.finished now => run_test_simulation req wt started_at now
  | ExecOutcome.raised msg now =>
      { test_request_id := req.id
        worktree_id := wt.id
        status := "FAILED"
        error := some msg
        started_at := some started_at
        completed_at := some now
        duration_seconds := some (now - started_at) }

/-- Observable events of one `_process_next_test` iteration, in program
order. -/
inductive IterEvent
  | dequeueTimeout
  | markRunning (reqId : String)
  | acquireCall (tag : String)
  | markComplete (reqId : String) (r : TestResult)
  | requeueForRetry (reqId : String)
  | markFailed (reqId : String) (r : TestResult)
  | releaseCall (wtId : String)
  | releaseErrorLogged (wtId : String) (msg : String)
deriving DecidableEq, Repr

/-- Outcomes of the fallible sub-operations of one worker iteration:
what `dequeue` yields within its 1 s deadline, what `pool.acquire`
does, what the executor does, what `requeue_for_retry` returns, and
what `pool.release` does. -/
structure IterEnv where
  dequeued : Option TestRequest
  acquireOutcome : Except String WorktreeInfo
  execOutcome : ExecOutcome
  started_at : Nat
  requeueReturns : Bool
  releaseOutcome : Except String Unit
deriving Repr

/-- Method `ExecutionWorker._process_next_test`: dequeue (a deadline expiry just
returns); `mark_running`; then under `try`: acquire a worktree, execute,
and on COMPLETE `mark_complete`, on FAILED `requeue_for_retry` and, when
that returns false, `mark_failed`.  Any exception in the `try` body
(here: a failed acquire) is converted to a FAILED result with error
`"Worker error: " + str(e)` and worktree id `"unknown"`, then retried or
marked failed.  The `finally` block releases the worktree whenever one
was acquired, logging and swallowing release errors. -/
def process_next_test (env : IterEnv) : List IterEvent :=
  match env.dequeued with
  | none => [IterEvent.dequeueTimeout]
  | some req =>
      match env.acquireOutcome with
      | Except.error msg =>
          let result : TestResult :=
            { test_request_id := req.id
              worktree_id := "unknown"
              status := "FAILED"
              error := some ("Worker error: " ++ msg) }
          let tail :=
            if env.requeueReturns then [IterEvent.requeueForRetry req.id]
            else [IterEvent.requeueForRetry req.id,
                  IterEvent.markFailed req.id result]
          IterEvent.markRunning req.id :: IterEvent.acquireCall req.plan_file ::
            tail
      | Except.ok wt =>
          let result := execute_test env.execOutcome req wt env.started_at
          let mid :=
            if result.status = "COMPLETE" then
              [IterEvent.markComplete req.id result]
            else if result.status = "FAILED" then
              if env.requeueReturns then [IterEvent.requeueForRetry req.id]
              else [IterEvent.requeueForRetry req.id,
                    IterEvent.markFailed req.id result]
            else []
          let fin :=
            match env.releaseOutcome with
            | Except.ok _ => [IterEvent.releaseCall wt.id]
            | Except.error m =>
                [IterEvent.releaseCall wt.id,
                 IterEvent.releaseErrorLogged wt.id m]
          IterEvent.markRunning req.id :: IterEvent.acquireCall req.plan_file ::
            (mid ++ fin)

/-! Concrete fixtures used by counterexamples and witnesses. -/

/-- A FREE worktree as `initialize` would create it. -/
def wt0 : WorktreeInfo :=
  { id := "wt-1", path := "/ws/wt-1", branch := "worktree-wt-1",
    status := WorktreeStatus.FREE, created_at := some 0 }

/-- The same worktree, leased to the test `"blocking-test"`. -/
def wt1B : WorktreeInfo :=
  { wt0 with status := WorktreeStatus.BUSY, current_test := some "blocking-test" }

/-- An initialized single-worktree pool whose only worktree is FREE. -/
def pF1 : WorktreePool :=
  { pool_size := 1, worktrees := [("wt-1", wt0)], initializedFlag := true }

/-- An initialized single-worktree pool whose only worktree is BUSY. -/
def pB1 : WorktreePool :=
  { pool_size := 1, worktrees := [("wt-1", wt1B)], initializedFlag := true }

/-- A request fixture. -/
def req0 : TestRequest := { id := "test-1", plan_file := "plan-1.md" }

/-- A git environment in which every command succeeds with empty
output. -/
def envAllOk : GitEnv := fun _ => CmdOutcome.ok ""

/-- A git environment in which the checkout step times out and
everything else succeeds. -/
def envTimeoutCheckout : GitEnv := fun args =>
  if args = ["git", "checkout", "-f", "main"] then CmdOutcome.timedOut
  else CmdOutcome.ok ""

/-- A creation environment in which every worktree is created
successfully. -/
def envCreate0 : InitEnv := fun wtId =>
  Except.ok { id := wtId, path := "/ws/" ++ wtId,
              branch := "worktree-" ++ wtId,
              status := WorktreeStatus.FREE, created_at := some 0 }

/-- An iteration environment: request dequeued, acquisition succeeds,
execution finishes normally, no retry needed, release succeeds. -/
def envIter0 : IterEnv :=
  { dequeued := some req0, acquireOutcome := Except.ok wt1B,
    execOutcome := ExecOutcome.finished 2, started_at := 1,
    requeueReturns := true, releaseOutcome := Except.ok () }

/-- The worktree `wt0` as `acquire` hands it out for tag `"t"` at time
5. -/
def wtA : WorktreeInfo :=
  { wt0 with
    status := WorktreeStatus.BUSY, current_test := some "t", last_used := some 5 }

/-- The pool `pF1` after that acquisition. -/
def pA : WorktreePool :=
  { pF1 with worktrees := setWt pF1.worktrees "wt-1" wtA }

/-- The four fixed, checked cleanup commands, in program order. -/
def cleanupStepCmds : List (List String) :=
  [["git", "checkout", "-f", "main"],
   ["git", "reset", "--hard", "origin/main"],
   ["git", "clean", "-fd"],
   ["git", "branch", "--list"]]

/-- Stdout of a command outcome (empty unless it exited normally). -/
def stdoutOf : CmdOutcome → String
  | CmdOutcome.ok s => s
  | _ => ""

/-- The branch-deletion events the loop would emit if no deletion timed
out: one `git branch -D` per listed branch other than `main` and the
worktree's own branch. -/
def deleteEventsAll (ownBranch : String) : List String → List PoolEvent
  | [] => []
  | br :: rest =>
      if br = "main" ∨ br = ownBranch then deleteEventsAll ownBranch rest
      else PoolEvent.runCmd ["git", "branch", "-D", br] 30 false ::
        deleteEventsAll ownBranch rest

/-- The full intended command-event sequence of the cleaning protocol:
checkout, reset, clean, branch listing, then all branch deletions. -/
def intendedCleanupEvents (env : GitEnv) (wt : WorktreeInfo) :
    List PoolEvent :=
  cleanupStepCmds.map (fun c => PoolEvent.runCmd c 30 true) ++
    deleteEventsAll wt.branch
      (parseBranches (stdoutOf (env ["git", "branch", "--list"])))

/-- Whether an event's command timeout (if any) is the 30-second bound. -/
def timeout30 : PoolEvent → Bool
  | PoolEvent.runCmd _ t _ => t == 30
  | _ => true

/-- Environment for the C5 counterexample: every checked step succeeds,
the branch listing shows a stray branch `feature-x`, and deleting it
exits non-zero (without timing out). -/
def envC5 : GitEnv := fun args =>
  if args = ["git", "branch", "--list"] then
    CmdOutcome.ok "  main\n* feature-x\n  worktree-wt-1\n"
  else if args = ["git", "branch", "-D", "feature-x"] then
    CmdOutcome.fail 1 "error: branch not fully merged"
  else CmdOutcome.ok ""

/-- The transition set claimed by the specification: FREE→BUSY,
BUSY→FREE, FREE→ERROR, ERROR→FREE. -/
def claimedTransition : WorktreeStatus → WorktreeStatus → Bool
  | WorktreeStatus.FREE, WorktreeStatus.BUSY => true
  | WorktreeStatus.BUSY, WorktreeStatus.FREE => true
  | WorktreeStatus.FREE, WorktreeStatus.ERROR => true
  | WorktreeStatus.ERROR, WorktreeStatus.FREE => true
  | _, _ => false

/-- The transition set the code actually uses: the claimed set plus
BUSY→ERROR (release whose cleaning fails). -/
def poolTransition : WorktreeStatus → WorktreeStatus → Bool
  | WorktreeStatus.BUSY, WorktreeStatus.ERROR => true
  | a, b => claimedTransition a b

/-! Theorems. -/

theorem findFree_mem (l : List (String × WorktreeInfo)) (k : String)
    (i : WorktreeInfo) (h : findFree l = some (k, i)) :
    (k, i) ∈ l ∧ i.status = WorktreeStatus.FREE := by
  induction l with
  | nil => simp [findFree] at h
  | cons kv t ih =>
      obtain ⟨k', v'⟩ := kv
      by_cases hs : v'.status = WorktreeStatus.FREE
      · simp [findFree, hs] at h
        obtain ⟨hk, hv⟩ := h
        subst hk; subst hv
        exact ⟨List.mem_cons_self _ _, hs⟩
      · simp [findFree, hs] at h
        obtain ⟨hm, hf⟩ := ih h
        exact ⟨List.mem_cons_of_mem _ hm, hf⟩

theorem lookup_of_mem_nodup (l : List (String × WorktreeInfo))
    (hnd : (l.map Prod.fst).Nodup) (k : String) (i : WorktreeInfo)
    (h : (k, i) ∈ l) : l.lookup k = some i := by
  induction l with
  | nil => simp at h
  | cons kv t ih =>
      obtain ⟨k', v'⟩ := kv
      simp only [List.map_cons, List.nodup_cons] at hnd
      rcases List.mem_cons.mp h with heq | hmem
      · obtain ⟨hk, hv⟩ := Prod.mk.injEq .. ▸ heq
        subst hk; subst hv
        simp [List.lookup]
      · have hne : k ≠ k' := by
          intro hkk
          subst hkk
          exact hnd.1 (List.mem_map_of_mem Prod.fst hmem)
        simp [List.lookup, beq_eq_false_iff_ne.mpr hne]
        exact ih hnd.2 hmem

theorem setWt_lookup_self (l : List (String × WorktreeInfo)) (k : String)
    (v : WorktreeInfo) : (setWt l k v).lookup k = some v := by
  induction l with
  | nil => simp [setWt, List.lookup]
  | cons kv t ih =>
      obtain ⟨k', v'⟩ := kv
      by_cases hk : k' = k
      · subst hk
        simp [setWt, List.lookup]
      · simp [setWt, hk, List.lookup,
          beq_eq_false_iff_ne.mpr (Ne.symm hk), ih]

theorem setWt_lookup_ne (l : List (String × WorktreeInfo)) (k k' : String)
    (v : WorktreeInfo) (hne : k' ≠ k) :
    (setWt l k v).lookup k' = l.lookup k' := by
  induction l with
  | nil => simp [setWt, List.lookup, beq_eq_false_iff_ne.mpr hne]
  | cons kv t ih =>
      obtain ⟨ka, va⟩ := kv
      by_cases hk : ka = k
      · subst hk
        simp [setWt, List.lookup, beq_eq_false_iff_ne.mpr hne]
      · simp [setWt, hk, List.lookup]
        by_cases hk' : k' = ka
        · subst hk'
          simp
        · simp [beq_eq_false_iff_ne.mpr hk', ih]

theorem mem_setWt_eq (l : List (String × WorktreeInfo)) (k : String)
    (v : WorktreeInfo) (hnd : (l.map Prod.fst).Nodup) (i : WorktreeInfo)
    (h : (k, i) ∈ setWt l k v) : i = v := by
  induction l with
  | nil =>
      simp [setWt] at h
      exact h
  | cons kv t ih =>
      obtain ⟨k', v'⟩ := kv
      simp only [List.map_cons, List.nodup_cons] at hnd
      by_cases hk : k' = k
      · subst hk
        simp only [setWt, if_pos rfl] at h
        rcases List.mem_cons.mp h with heq | hmem
        · exact (Prod.mk.injEq .. ▸ heq).2
        · exact absurd (List.mem_map_of_mem Prod.fst hmem) hnd.1
      · simp only [setWt, if_neg hk] at h
        rcases List.mem_cons.mp h with heq | hmem
        · exact absurd (Prod.mk.injEq .. ▸ heq).1.symm hk
        · exact ih hnd.2 hmem

theorem acquireScan_spec (p : WorktreePool) (tag : Option String)
    (now : Nat) (hnd : (p.worktrees.map Prod.fst).Nodup)
    (k : String) (i : WorktreeInfo) (p' : WorktreePool)
    (h : acquireScan p tag now = some (k, i, p')) :
    (∃ old, p.worktrees.lookup k = some old ∧
       old.status = WorktreeStatus.FREE ∧
       i = { old with
             status := WorktreeStatus.BUSY, current_test := tag, last_used := some now }) ∧
    p'.statusOf k = some WorktreeStatus.BUSY ∧
    (∀ k', k' ≠ k → p'.statusOf k' = p.statusOf k') ∧
    (∀ tag' now' k2 i2 p2, acquireScan p' tag' now' = some (k2, i2, p2) →
       k2 ≠ k) := by
  unfold acquireScan at h
  cases hf : findFree p.worktrees with
  | none => rw [hf] at h; exact absurd h (by simp)
  | some ki =>
      obtain ⟨k0, old⟩ := ki
      rw [hf] at h
      simp only [Option.some.injEq, Prod.mk.injEq] at h
      obtain ⟨hk, hi, hp⟩ := h
      subst hk
      subst hi
      subst hp
      obtain ⟨hmem, hfree⟩ := findFree_mem _ _ _ hf
      have hlk := lookup_of_mem_nodup _ hnd _ _ hmem
      refine ⟨⟨old, hlk, hfree, rfl⟩, ?_, ?_, ?_⟩
      · simp [WorktreePool.statusOf, setWt_lookup_self]
      · intro k' hne
        simp only [WorktreePool.statusOf]
        rw [setWt_lookup_ne _ _ _ _ hne]
      · intro tag' now' k2 i2 p2 h2 hkk
        subst hkk
        unfold acquireScan at h2
        cases hf2 : findFree
            (setWt p.worktrees k2
              ({ old with
                 status := WorktreeStatus.BUSY, current_test := tag, last_used := some now })) with
        | none =>
            simp only at h2
            rw [hf2] at h2
            exact absurd h2 (by simp)
        | some ki2 =>
            obtain ⟨k3, i3⟩ := ki2
            simp only at h2
            rw [hf2] at h2
            simp only [Option.some.injEq, Prod.mk.injEq] at h2
            obtain ⟨hk3, -, -⟩ := h2
            subst hk3
            obtain ⟨hmem2, hfree2⟩ := findFree_mem _ _ _ hf2
            have hi3 := mem_setWt_eq _ _ _ hnd _ hmem2
            rw [hi3] at hfree2
            exact absurd hfree2 (by simp)

/-- C3: `acquire` returns only a workspace that was FREE, transitions it
to BUSY in the same critical section, stamps the tag and last-use,
leaves every other entry untouched, and a subsequent acquisition can
never hand out the same workspace until it is released. -/
theorem C3_acquire_exclusive_lease (p : WorktreePool) (tag : Option String)
    (now : Nat) (hnd : (p.worktrees.map Prod.fst).Nodup)
    (k : String) (i : WorktreeInfo) (p' : WorktreePool)
    (h : acquireScan p tag now = some (k, i, p')) :
    (∃ old, p.worktrees.lookup k = some old ∧
       old.status = WorktreeStatus.FREE ∧
       i = { old with
             status := WorktreeStatus.BUSY, current_test := tag, last_used := some now }) ∧
    p'.statusOf k = some WorktreeStatus.BUSY ∧
    (∀ k', k' ≠ k → p'.statusOf k' = p.statusOf k') ∧
    (∀ tag' now' k2 i2 p2, acquireScan p' tag' now' = some (k2, i2, p2) →
       k2 ≠ k) :=
  acquireScan_spec p tag now hnd k i p' h

/-- Witness for C3 at a concrete one-worktree pool. -/
theorem C3_acquire_exclusive_lease_witness :
    (∃ old, pF1.worktrees.lookup "wt-1" = some old ∧
       old.status = WorktreeStatus.FREE ∧
       wtA = { old with
               status := WorktreeStatus.BUSY, current_test := some "t", last_used := some 5 }) ∧
    pA.statusOf "wt-1" = some WorktreeStatus.BUSY ∧
    (∀ k', k' ≠ "wt-1" → pA.statusOf k' = pF1.statusOf k') ∧
    (∀ tag' now' k2 i2 p2, acquireScan pA tag' now' = some (k2, i2, p2) →
       k2 ≠ "wt-1") :=
  C3_acquire_exclusive_lease pF1 (some "t") 5 (by decide) "wt-1" wtA pA rfl

theorem release_pool_eq (env : GitEnv) (p : WorktreePool)
    (wt : WorktreeInfo) :
    (WorktreePool.release env p wt).2.1 =
      if (p.worktrees.lookup wt.id).isNone then p
      else
        match (cleanup_worktree env wt).2 with
        | Except.ok _ =>
            { p with worktrees := setWt p.worktrees wt.id { wt with status := WorktreeStatus.FREE, current_test := none } }
        | Except.error _ =>
            { p with worktrees := setWt p.worktrees wt.id { wt with status := WorktreeStatus.ERROR } } := by
  unfold WorktreePool.release
  by_cases hmem : (p.worktrees.lookup wt.id).isNone
  · simp [hmem]
  · simp only [Bool.not_eq_true] at hmem
    simp only [hmem, Bool.false_eq_true, if_false]
    cases hc : (cleanup_worktree env wt).2 <;> simp [hc]

/-- C4 counterexample: releasing a BUSY worktree whose cleanup fails
moves it BUSY→ERROR, a transition outside the claimed set. -/
theorem C4_counterexample :
    pB1.statusOf "wt-1" = some WorktreeStatus.BUSY ∧
    ((WorktreePool.release envTimeoutCheckout pB1 wt1B).2.1).statusOf
      "wt-1" = some WorktreeStatus.ERROR ∧
    claimedTransition WorktreeStatus.BUSY WorktreeStatus.ERROR = false :=
  ⟨rfl, rfl, rfl⟩

/-- C4 (amended): every status change performed by `acquire` or
`release` is FREE→BUSY, BUSY→FREE, FREE→ERROR, ERROR→FREE, or
BUSY→ERROR (release whose cleaning fails). -/
theorem C4_amended_transition_set :
    (∀ p tag now k i p', (p.worktrees.map Prod.fst).Nodup →
       acquireScan p tag now = some (k, i, p') →
       ∀ key a b, p.statusOf key = some a → p'.statusOf key = some b →
         a = b ∨ poolTransition a b = true) ∧
    (∀ env p wt, (p.worktrees.map Prod.fst).Nodup →
       ∀ key a b, p.statusOf key = some a →
         ((WorktreePool.release env p wt).2.1).statusOf key = some b →
         a = b ∨ poolTransition a b = true) := by
  constructor
  · intro p tag now k i p' hnd h key a b hb hb'
    obtain ⟨hex, hstat, hothers, -⟩ := acquireScan_spec p tag now hnd k i p' h
    obtain ⟨old, hlk, hfree, hi⟩ := hex
    by_cases hkey : key = k
    · subst hkey
      simp only [WorktreePool.statusOf, hlk, Option.map_some',
        Option.some.injEq] at hb
      rw [hstat] at hb'
      simp only [Option.some.injEq] at hb'
      right
      rw [← hb', ← hb, hfree]
      decide
    · rw [hothers key hkey] at hb'
      rw [hb] at hb'
      simp only [Option.some.injEq] at hb'
      exact Or.inl hb'
  · intro env p wt hnd key a b hb hb'
    rw [release_pool_eq] at hb'
    by_cases hmem : (p.worktrees.lookup wt.id).isNone
    · rw [if_pos hmem] at hb'
      rw [hb] at hb'
      simp only [Option.some.injEq] at hb'
      exact Or.inl hb'
    · rw [if_neg hmem] at hb'
      by_cases hkey : key = wt.id
      · subst hkey
        cases hc : (cleanup_worktree env wt).2 with
        | ok u =>
            rw [hc] at hb'
            simp only [WorktreePool.statusOf, setWt_lookup_self,
              Option.map_some', Option.some.injEq] at hb'
            subst hb'
            cases a with
            | FREE => exact Or.inl rfl
            | BUSY => exact Or.inr rfl
            | ERROR => exact Or.inr rfl
        | error m =>
            rw [hc] at hb'
            simp only [WorktreePool.statusOf, setWt_lookup_self,
              Option.map_some', Option.some.injEq] at hb'
            subst hb'
            cases a with
            | FREE => exact Or.inr rfl
            | BUSY => exact Or.inr rfl
            | ERROR => exact Or.inl rfl
      · cases hc : (cleanup_worktree env wt).2 with
        | ok u =>
            rw [hc] at hb'
            simp only [WorktreePool.statusOf] at hb'
            rw [setWt_lookup_ne _ _ _ _ hkey] at hb'
            simp only [WorktreePool.statusOf] at hb
            rw [hb] at hb'
            simp only [Option.some.injEq] at hb'
            exact Or.inl hb'
        | error m =>
            rw [hc] at hb'
            simp only [WorktreePool.statusOf] at hb'
            rw [setWt_lookup_ne _ _ _ _ hkey] at hb'
            simp only [WorktreePool.statusOf] at hb
            rw [hb] at hb'
            simp only [Option.some.injEq] at hb'
            exact Or.inl hb'

/-- Witness for C4 (amended) at the concrete failing release. -/
theorem C4_amended_transition_set_witness :
    WorktreeStatus.BUSY = WorktreeStatus.ERROR ∨
      poolTransition WorktreeStatus.BUSY WorktreeStatus.ERROR = true :=
  C4_amended_transition_set.2 envTimeoutCheckout pB1 wt1B (by decide)
    "wt-1" WorktreeStatus.BUSY WorktreeStatus.ERROR rfl rfl

/-- C9: the three status counters partition the pool table, because each
worktree's status is exactly one of FREE, BUSY, ERROR. -/
theorem C9_counters_partition_table (p : WorktreePool) :
    p.num_free + p.num_busy + p.num_error = p.worktrees.length := by
  unfold WorktreePool.num_free WorktreePool.num_busy WorktreePool.num_error
  induction p.worktrees with
  | nil => rfl
  | cons kv t ih =>
      cases h : kv.2.status <;>
        simp [List.countP_cons, h, List.length_cons] <;> omega

/-- C10: the built-in simulation always returns a COMPLETE result with
`tasks_passed = 5` and `tasks_failed = 0`; `_execute_test` produces a
FAILED result only from a raised exception, never from the executor's
normal return value. -/
theorem C10_simulation_always_complete :
    (∀ req wt t0 now,
        (run_test_simulation req wt t0 now).status = "COMPLETE" ∧
        (run_test_simulation req wt t0 now).tasks_passed = 5 ∧
        (run_test_simulation req wt t0 now).tasks_failed = 0) ∧
    (∀ o req wt t0, (execute_test o req wt t0).status = "FAILED" →
        ∃ m n, o = ExecOutcome.raised m n) := by
  constructor
  · intro req wt t0 now
    exact ⟨rfl, rfl, rfl⟩
  · intro o req wt t0 h
    cases o with
    | finished now =>
        exact absurd h (by simp [execute_test, run_test_simulation])
    | raised m n => exact ⟨m, n, rfl⟩

/-- Witness for C10 at the concrete outcome `raised "boom" 3`. -/
theorem C10_simulation_always_complete_witness :
    ∃ m n, ExecOutcome.raised "boom" 3 = ExecOutcome.raised m n :=
  C10_simulation_always_complete.2 (ExecOutcome.raised "boom" 3) req0 wt0 1
    (by rfl)

/-- C6 counterexample: an exception raised inside the executor step is
converted by `_execute_test` to a FAILED result whose error string is
the bare exception message, not `"Worker error: "` followed by it. -/
theorem C6_counterexample :
    (execute_test (ExecOutcome.raised "boom" 7) req0 wt0 3).status =
      "FAILED" ∧
    (execute_test (ExecOutcome.raised "boom" 7) req0 wt0 3).error =
      some "boom" ∧
    some "boom" ≠ some ("Worker error: " ++ "boom") :=
  ⟨rfl, rfl, by decide⟩

/-- C6 (amended): the execution outcome is always COMPLETE, FAILED, or an
exception; an exception raised by the executor is converted inside
`_execute_test` to FAILED with error equal to the bare exception
message, while an exception escaping the rest of the iteration (such as
a failed acquisition) is converted to FAILED with error
`"Worker error: "` followed by the message. -/
theorem C6_amended_exception_conversion :
    (∀ o req wt t0, (execute_test o req wt t0).status = "COMPLETE" ∨
        (execute_test o req wt t0).status = "FAILED") ∧
    (∀ msg now req wt t0,
        (execute_test (ExecOutcome.raised msg now) req wt t0).status =
          "FAILED" ∧
        (execute_test (ExecOutcome.raised msg now) req wt t0).error =
          some msg) ∧
    (∀ env req m, env.dequeued = some req →
        env.acquireOutcome = Except.error m → env.requeueReturns = false →
        IterEvent.markFailed req.id
          { test_request_id := req.id, worktree_id := "unknown",
            status := "FAILED", error := some ("Worker error: " ++ m) } ∈
          process_next_test env) := by
  refine ⟨?_, ?_, ?_⟩
  · intro o req wt t0
    cases o with
    | finished now => exact Or.inl rfl
    | raised m n => exact Or.inr rfl
  · intro msg now req wt t0
    exact ⟨rfl, rfl⟩
  · intro env req m hd ha hr
    simp [process_next_test, hd, ha, hr]

/-- Witness for C6 (amended) at a concrete failing-acquisition
environment. -/
theorem C6_amended_exception_conversion_witness :
    IterEvent.markFailed req0.id
      { test_request_id := req0.id, worktree_id := "unknown",
        status := "FAILED", error := some ("Worker error: " ++ "no pool") } ∈
      process_next_test
        { dequeued := some req0,
          acquireOutcome := Except.error "no pool",
          execOutcome := ExecOutcome.finished 2, started_at := 1,
          requeueReturns := false, releaseOutcome := Except.ok () } :=
  C6_amended_exception_conversion.2.2
    { dequeued := some req0, acquireOutcome := Except.error "no pool",
      execOutcome := ExecOutcome.finished 2, started_at := 1,
      requeueReturns := false, releaseOutcome := Except.ok () }
    req0 "no pool" rfl rfl rfl

/-- C7: whenever a worktree was acquired, every exit path of the
iteration releases it, and a release error only adds a logged-error
event instead of propagating (the remaining behaviour of the iteration
is unchanged). -/
theorem C7_release_on_every_path (env : IterEnv) (req : TestRequest)
    (wt : WorktreeInfo) (hd : env.dequeued = some req)
    (ha : env.acquireOutcome = Except.ok wt) :
    IterEvent.releaseCall wt.id ∈ process_next_test env ∧
    (∀ m, env.releaseOutcome = Except.error m →
        process_next_test env =
          process_next_test { env with releaseOutcome := Except.ok () } ++
            [IterEvent.releaseErrorLogged wt.id m]) := by
  constructor
  · simp only [process_next_test, hd, ha]
    cases hrel : env.releaseOutcome <;> simp
  · intro m hm
    simp [process_next_test, hd, ha, hm]

/-- Witness for C7 at a concrete iteration whose release fails. -/
theorem C7_release_on_every_path_witness :
    IterEvent.releaseCall wt1B.id ∈
      process_next_test { envIter0 with
        releaseOutcome := Except.error "cleanup failed" } ∧
    (∀ m, ({ envIter0 with
          releaseOutcome := Except.error "cleanup failed" } : IterEnv
            ).releaseOutcome = Except.error m →
        process_next_test { envIter0 with
          releaseOutcome := Except.error "cleanup failed" } =
          process_next_test { envIter0 with releaseOutcome := Except.ok () } ++
            [IterEvent.releaseErrorLogged wt1B.id m]) :=
  C7_release_on_every_path
    { envIter0 with releaseOutcome := Except.error "cleanup failed" }
    req0 wt1B rfl rfl

/-- C8 counterexample: calling `initialize` on an already-initialized
pool returns successfully and leaves the pool unchanged — a silent
no-op, not an error surfaced to the caller. -/
theorem C8_counterexample :
    ( WorktreePool.initialize envCreate0 pB1).2 = Except.ok () ∧
    ( WorktreePool.initialize envCreate0 pB1).1 = pB1 :=
  ⟨rfl, rfl⟩

/-- C8 (amended): a second `initialize` without teardown logs a warning
and returns immediately with no error and no state change. -/
theorem C8_amended_second_initialize_noop (env : InitEnv) (p : WorktreePool)
    (h : p.initializedFlag = true) :
    WorktreePool.initialize env p = (p, Except.ok ()) := by
  unfold WorktreePool.initialize
  simp [h]

/-- Witness for C8 (amended) at the concrete initialized pool. -/
theorem C8_amended_second_initialize_noop_witness :
    WorktreePool.initialize envCreate0 pB1 = (pB1, Except.ok ()) :=
  C8_amended_second_initialize_noop envCreate0 pB1 rfl

theorem acquireLoop_busy (tag : Option String) (now : Nat) (fuel : Nat) :
    acquireLoop pB1 tag now fuel =
      (List.replicate fuel (PoolEvent.sleepSec 1), none) := by
  induction fuel with
  | zero => rfl
  | succ n ih =>
      have hscan : acquireScan pB1 tag now = none := rfl
      simp [acquireLoop, hscan, ih, List.replicate_succ]

theorem acquire_busy_events (tag : Option String) (now fuel : Nat) :
    WorktreePool.acquire pB1 tag now fuel =
      (PoolEvent.lockAcquire :: List.replicate fuel (PoolEvent.sleepSec 1),
       Except.ok none) := by
  have hinit : pB1.initializedFlag = true := rfl
  simp [WorktreePool.acquire, hinit, acquireLoop_busy]

/-- C1: on the concrete initialized pool whose single worktree stays
BUSY, `acquire` never returns, for any number of wait rounds: after
`fuel` rounds it has slept for `fuel` seconds and is still waiting, and
no exception is ever raised — the method has no timeout parameter and
no `AcquisitionTimeout` exists in the module. -/
theorem C1_acquire_blocks_forever_without_timeout (fuel : Nat) :
    (WorktreePool.acquire pB1 (some "waiting-test") 0 fuel).2 =
      Except.ok none ∧
    (WorktreePool.acquire pB1 (some "waiting-test") 0 fuel).1 =
      PoolEvent.lockAcquire :: List.replicate fuel (PoolEvent.sleepSec 1) := by
  rw [acquire_busy_events]
  exact ⟨rfl, rfl⟩

theorem heldAnnotate_replicate_sleep (n : Nat) :
    heldAnnotate true (List.replicate n (PoolEvent.sleepSec 1)) =
      List.replicate n (PoolEvent.sleepSec 1, true) := by
  induction n with
  | zero => rfl
  | succ m ih => simp [List.replicate_succ, heldAnnotate, ih]

theorem all_replicate_true {α : Type} (n : Nat) (a : α) (f : α → Bool)
    (h : f a = true) : (List.replicate n a).all f = true := by
  induction n with
  | zero => rfl
  | succ m ih => simp [List.replicate_succ, List.all_cons, h, ih]

theorem countP_replicate {α : Type} (n : Nat) (a : α) (f : α → Bool)
    (h : f a = true) : (List.replicate n a).countP f = n := by
  induction n with
  | zero => rfl
  | succ m ih => simp [List.replicate_succ, List.countP_cons, h, ih]

/-- C2: on the concrete pool, the mutex is held across every sleep of a
waiter inside `acquire` (there is one sleep per wait round), and it is
held across every external git command spawned by `release`'s cleanup
(there are four) — so a release cannot run, let alone wake a waiter,
while another task waits inside `acquire`. -/
theorem C2_mutex_held_across_wait_and_external_commands :
    (∀ fuel,
       (heldAnnotate false
           (WorktreePool.acquire pB1 (some "waiting-test") 0 fuel).1).all
         (fun eb => !eb.1.isSleep || eb.2) = true ∧
       ((WorktreePool.acquire pB1 (some "waiting-test") 0 fuel).1.countP
         PoolEvent.isSleep) = fuel) ∧
    ((heldAnnotate false
        (WorktreePool.release envAllOk pB1 wt1B).1).all
      (fun eb => !eb.1.isRunCmd || eb.2) = true ∧
     ((WorktreePool.release envAllOk pB1 wt1B).1.countP
       PoolEvent.isRunCmd) = 4) := by
  constructor
  · intro fuel
    have hacq := acquire_busy_events (some "waiting-test") 0 fuel
    constructor
    · rw [hacq]
      simp only [heldAnnotate, heldAnnotate_replicate_sleep, List.all_cons]
      refine Eq.trans ?_ (all_replicate_true fuel
        (PoolEvent.sleepSec 1, true) (fun eb => !eb.1.isSleep || eb.2) rfl)
      rfl
    · rw [hacq]
      simp only [List.countP_cons]
      rw [countP_replicate fuel (PoolEvent.sleepSec 1) PoolEvent.isSleep rfl]
      rfl
  · exact ⟨by decide, by decide⟩

theorem deleteBranches_timeout30 (env : GitEnv) (wtId own : String)
    (l : List String) :
    ((deleteBranches env wtId own l).1.all timeout30) = true := by
  induction l with
  | nil => rfl
  | cons br rest ih =>
      by_cases hskip : br = "main" ∨ br = own
      · simp only [deleteBranches, if_pos hskip]
        exact ih
      · simp only [deleteBranches, if_neg hskip]
        cases henv : env ["git", "branch", "-D", br] with
        | timedOut => rfl
        | ok s => simpa [List.all_cons, timeout30] using ih
        | fail rc st => simpa [List.all_cons, timeout30] using ih

theorem cleanup_timeout30 (env : GitEnv) (wt : WorktreeInfo) :
    ((cleanup_worktree env wt).1.all timeout30) = true := by
  simp only [cleanup_worktree, runCleanupStep]
  cases h1 : env ["git", "checkout", "-f", "main"] with
  | fail rc st => rfl
  | timedOut => rfl
  | ok s1 =>
      cases h2 : env ["git", "reset", "--hard", "origin/main"] with
      | fail rc st => rfl
      | timedOut => rfl
      | ok s2 =>
          cases h3 : env ["git", "clean", "-fd"] with
          | fail rc st => rfl
          | timedOut => rfl
          | ok s3 =>
              cases h4 : env ["git", "branch", "--list"] with
              | fail rc st => rfl
              | timedOut => rfl
              | ok s4 =>
                  simp only [List.all_append]
                  rw [deleteBranches_timeout30]
                  rfl

theorem deleteBranches_events_prefix (env : GitEnv) (wtId own : String)
    (l : List String) :
    ∃ t, (deleteBranches env wtId own l).1 ++ t = deleteEventsAll own l := by
  induction l with
  | nil => exact ⟨[], rfl⟩
  | cons br rest ih =>
      by_cases hskip : br = "main" ∨ br = own
      · simp only [deleteBranches, deleteEventsAll, if_pos hskip]
        exact ih
      · simp only [deleteBranches, deleteEventsAll, if_neg hskip]
        cases henv : env ["git", "branch", "-D", br] with
        | timedOut => exact ⟨deleteEventsAll own rest, rfl⟩
        | ok s =>
            obtain ⟨t, ht⟩ := ih
            exact ⟨t, by simp [ht]⟩
        | fail rc st =>
            obtain ⟨t, ht⟩ := ih
            exact ⟨t, by simp [ht]⟩

theorem cleanup_events_prefix (env : GitEnv) (wt : WorktreeInfo) :
    ∃ t, (cleanup_worktree env wt).1 ++ t = intendedCleanupEvents env wt := by
  simp only [cleanup_worktree, runCleanupStep, intendedCleanupEvents,
    cleanupStepCmds, stdoutOf, List.map_cons, List.map_nil]
  cases h1 : env ["git", "checkout", "-f", "main"] with
  | fail rc st => exact ⟨_, rfl⟩
  | timedOut => exact ⟨_, rfl⟩
  | ok s1 =>
      cases h2 : env ["git", "reset", "--hard", "origin/main"] with
      | fail rc st => exact ⟨_, rfl⟩
      | timedOut => exact ⟨_, rfl⟩
      | ok s2 =>
          cases h3 : env ["git", "clean", "-fd"] with
          | fail rc st => exact ⟨_, rfl⟩
          | timedOut => exact ⟨_, rfl⟩
          | ok s3 =>
              cases h4 : env ["git", "branch", "--list"] with
              | fail rc st => exact ⟨_, rfl⟩
              | timedOut => exact ⟨_, rfl⟩
              | ok s4 =>
                  obtain ⟨t, ht⟩ :=
                    deleteBranches_events_prefix env wt.id wt.branch
                      (parseBranches s4)
                  exact ⟨t, by simp [ht]⟩

theorem deleteBranches_timeout_err (env : GitEnv) (wtId own : String)
    (l : List String) (br : String) (hmem : br ∈ l)
    (hskip : ¬(br = "main" ∨ br = own))
    (ht : env ["git", "branch", "-D", br] = CmdOutcome.timedOut) :
    (deleteBranches env wtId own l).2 =
      Except.error ("Timeout cleaning worktree " ++ wtId) := by
  induction l with
  | nil => simp at hmem
  | cons b rest ih =>
      rcases List.mem_cons.mp hmem with hb | hb
      · subst hb
        simp only [deleteBranches, if_neg hskip, ht]
      · by_cases hsk : b = "main" ∨ b = own
        · simp only [deleteBranches, if_pos hsk]
          exact ih hb
        · simp only [deleteBranches, if_neg hsk]
          cases henv : env ["git", "branch", "-D", b] with
          | timedOut => rfl
          | ok s => simpa using ih hb
          | fail rc st => simpa using ih hb

theorem deleteBranches_no_timeout_ok (env : GitEnv) (wtId own : String)
    (l : List String)
    (h : ∀ br, env ["git", "branch", "-D", br] ≠ CmdOutcome.timedOut) :
    (deleteBranches env wtId own l).2 = Except.ok () := by
  induction l with
  | nil => rfl
  | cons b rest ih =>
      by_cases hsk : b = "main" ∨ b = own
      · simp only [deleteBranches, if_pos hsk]
        exact ih
      · simp only [deleteBranches, if_neg hsk]
        cases henv : env ["git", "branch", "-D", b] with
        | timedOut => exact absurd henv (h b)
        | ok s => simpa using ih
        | fail rc st => simpa using ih

theorem release_error_marks_error (env : GitEnv) (p : WorktreePool)
    (wt : WorktreeInfo) (m : String)
    (hmem : (p.worktrees.lookup wt.id).isNone = false)
    (hc : (cleanup_worktree env wt).2 = Except.error m) :
    (WorktreePool.release env p wt).2.2 = Except.error m ∧
    ((WorktreePool.release env p wt).2.1).statusOf wt.id =
      some WorktreeStatus.ERROR := by
  unfold WorktreePool.release
  simp [hmem, hc, WorktreePool.statusOf, setWt_lookup_self]

/-- C5 counterexample: with a branch listing that contains a stray
branch whose deletion exits non-zero (not a timeout), the deletion step
fails yet cleaning succeeds and release marks the workspace FREE — so
not every step failure transitions the workspace to ERROR. -/
theorem C5_counterexample :
    envC5 ["git", "branch", "-D", "feature-x"] =
      CmdOutcome.fail 1 "error: branch not fully merged" ∧
    PoolEvent.runCmd ["git", "branch", "-D", "feature-x"] 30 false ∈
      (cleanup_worktree envC5 wt1B).1 ∧
    (cleanup_worktree envC5 wt1B).2 = Except.ok () ∧
    ((WorktreePool.release envC5 pB1 wt1B).2.1).statusOf "wt-1" =
      some WorktreeStatus.FREE := by
  refine ⟨rfl, ?_, rfl, rfl⟩
  decide

/-- C5 (amended): cleaning performs, in order, force-checkout of main,
hard-reset to origin/main, removal of untracked files, listing of local
branches, then deletion of every listed branch except main and the
workspace's own branch; every spawned command has a 30-second timeout;
failure (non-zero exit or timeout) of any of the four checked steps, or
a timeout of a branch deletion, aborts cleaning with an error which
release turns into an ERROR state; a branch deletion that exits
non-zero without timing out is silently ignored. -/
theorem C5_amended_cleaning_protocol :
    (∀ env wt, ((cleanup_worktree env wt).1.all timeout30) = true) ∧
    (∀ env wt, ∃ t, (cleanup_worktree env wt).1 ++ t =
        intendedCleanupEvents env wt) ∧
    (∀ env wt c, c ∈ cleanupStepCmds → (∀ s, env c ≠ CmdOutcome.ok s) →
        ∃ m, (cleanup_worktree env wt).2 = Except.error m) ∧
    (∀ env wt s1 s2 s3 s4 br,
        env ["git", "checkout", "-f", "main"] = CmdOutcome.ok s1 →
        env ["git", "reset", "--hard", "origin/main"] = CmdOutcome.ok s2 →
        env ["git", "clean", "-fd"] = CmdOutcome.ok s3 →
        env ["git", "branch", "--list"] = CmdOutcome.ok s4 →
        br ∈ parseBranches s4 → ¬(br = "main" ∨ br = wt.branch) →
        env ["git", "branch", "-D", br] = CmdOutcome.timedOut →
        (cleanup_worktree env wt).2 =
          Except.error ("Timeout cleaning worktree " ++ wt.id)) ∧
    (∀ env wt s1 s2 s3 s4,
        env ["git", "checkout", "-f", "main"] = CmdOutcome.ok s1 →
        env ["git", "reset", "--hard", "origin/main"] = CmdOutcome.ok s2 →
        env ["git", "clean", "-fd"] = CmdOutcome.ok s3 →
        env ["git", "branch", "--list"] = CmdOutcome.ok s4 →
        (∀ br, env ["git", "branch", "-D", br] ≠ CmdOutcome.timedOut) →
        (cleanup_worktree env wt).2 = Except.ok ()) ∧
    (∀ env p wt m, (p.worktrees.lookup wt.id).isNone = false →
        (cleanup_worktree env wt).2 = Except.error m →
        (WorktreePool.release env p wt).2.2 = Except.error m ∧
        ((WorktreePool.release env p wt).2.1).statusOf wt.id =
          some WorktreeStatus.ERROR) := by
  refine ⟨cleanup_timeout30, cleanup_events_prefix, ?_, ?_, ?_,
    release_error_marks_error⟩
  · intro env wt c hc hnot
    simp only [cleanupStepCmds, List.mem_cons, List.not_mem_nil,
      or_false] at hc
    simp only [cleanup_worktree, runCleanupStep]
    cases h1 : env ["git", "checkout", "-f", "main"] with
    | fail rc st => exact ⟨_, rfl⟩
    | timedOut => exact ⟨_, rfl⟩
    | ok s1 =>
        cases h2 : env ["git", "reset", "--hard", "origin/main"] with
        | fail rc st => exact ⟨_, rfl⟩
        | timedOut => exact ⟨_, rfl⟩
        | ok s2 =>
            cases h3 : env ["git", "clean", "-fd"] with
            | fail rc st => exact ⟨_, rfl⟩
            | timedOut => exact ⟨_, rfl⟩
            | ok s3 =>
                cases h4 : env ["git", "branch", "--list"] with
                | fail rc st => exact ⟨_, rfl⟩
                | timedOut => exact ⟨_, rfl⟩
                | ok s4 =>
                    exfalso
                    rcases hc with hc | hc | hc | hc <;> subst hc
                    · exact hnot s1 h1
                    · exact hnot s2 h2
                    · exact hnot s3 h3
                    · exact hnot s4 h4
  · intro env wt s1 s2 s3 s4 br h1 h2 h3 h4 hmem hskip ht
    simp only [cleanup_worktree, runCleanupStep, h1, h2, h3, h4]
    exact deleteBranches_timeout_err env wt.id wt.branch
      (parseBranches s4) br hmem hskip ht
  · intro env wt s1 s2 s3 s4 h1 h2 h3 h4 hnt
    simp only [cleanup_worktree, runCleanupStep, h1, h2, h3, h4]
    exact deleteBranches_no_timeout_ok env wt.id wt.branch
      (parseBranches s4) hnt

/-- Witness for C5 (amended) at the concrete environment of the
counterexample: the checked steps succeed, no deletion times out, and
cleaning returns successfully. -/
theorem C5_amended_cleaning_protocol_witness :
    (cleanup_worktree envC5 wt1B).2 = Except.ok () :=
  C5_amended_cleaning_protocol.2.2.2.2.1 envC5 wt1B "" "" ""
    "  main\n* feature-x\n  worktree-wt-1\n" rfl rfl rfl rfl
    (by
      intro br
      simp only [envC5]
      split
      · simp
      · split
        · simp
        · simp)

end PipelineHardening
